import Mathlib

/-!
Shallow embedding of the Pilluma eye-animation engine (src/pillumadev.py).

Modelling conventions:
* Python `int` is `ℤ`; configuration values (TOML positive integers) are `ℕ`.
* Python floor division `//` is `/` on `ℤ` (which is `Int.ediv`, i.e. floor
  division for positive divisors) and `/` on `ℕ`.
* The gaze offsets become Python floats once the "slow" look speed (0.5) is
  used.  Every value they ever take is a multiple of 1/2 of magnitude far
  below 2^52, where double-precision arithmetic is exact, so they are
  modelled as `ℚ`.
* `int(x * 1.2)` on a nonnegative int `x` equals `6 * x / 5` (floor) for all
  `x < 2^49, since the double rounding error of `1.2` is below the truncation
  threshold there; screen configuration values are tiny.
* Each blocking convergence loop (`while True: ... break`) is modelled with
  explicit fuel, returning `none` when the fuel is exhausted before the
  loop's break condition fires.  "The command terminates with state s" is
  rendered as "the loop returns `some s` for some/all sufficient fuel".
* The `time.sleep` pacing, logging, and the PIL rasterisation are irrelevant
  to the claims and are not modelled; `draw_eyes` is not needed by any claim.
-/

namespace Pilluma

/-- Per-eye section of the render configuration (`config["eye"]["left"]` /
`config["eye"]["right"]`). -/
structure EyeConfig where
  width : ℕ
  height : ℕ
  roundness : ℕ
deriving DecidableEq

/-- The merged configuration consumed by the animation core: screen geometry
and the eye section (defaults: 128x64 screen, fps 30, distance 10,
32x32 eyes with roundness 8). -/
structure Config where
  screen_width : ℕ
  screen_height : ℕ
  fps : ℕ
  distance : ℕ
  left : EyeConfig
  right : EyeConfig
deriving DecidableEq

/-- The default configuration (`DEFAULT_SCREEN_CONFIG` and
`DEFAULT_RENDER_CONFIG`). -/
def defaultConfig : Config :=
  { screen_width := 128
    screen_height := 64
    fps := 30
    distance := 10
    left := { width := 32, height := 32, roundness := 8 }
    right := { width := 32, height := 32, roundness := 8 } }

/-- The six eyelid-height globals (`eyelid_top_inner_left_height`, ...),
named after the keys of the dictionaries used in `change_face`. -/
@[ext]
structure Lids where
  top_inner_left : ℤ
  top_outer_left : ℤ
  bottom_left : ℤ
  top_inner_right : ℤ
  top_outer_right : ℤ
  bottom_right : ℤ
deriving DecidableEq

/-- The mutable global animation state of pillumadev.py (the `current_*`
globals plus the eyelid globals). -/
structure AnimState where
  current_bg_color : String
  current_eye_color : String
  current_face : String
  current_curious : Bool
  current_closed : Option String
  current_offset_x : ℚ
  current_offset_y : ℚ
  lids : Lids
  current_eye_height_left : ℤ
  current_eye_height_right : ℤ
deriving DecidableEq

/-- The initial animation state: eyes fully open at their configured base
heights, everything else zeroed (`closedState = none`). -/
def initState (config : Config) : AnimState :=
  { current_bg_color := "black"
    current_eye_color := "white"
    current_face := "default"
    current_curious := false
    current_closed := none
    current_offset_x := 0
    current_offset_y := 0
    lids := ⟨0, 0, 0, 0, 0, 0⟩
    current_eye_height_left := (config.left.height : ℤ)
    current_eye_height_right := (config.right.height : ℤ) }

/-- Python truthiness of the `current_closed` global (`None` and `""` are
falsy, any other string truthy). -/
def truthy : Option String → Bool
  | none => false
  | some s => !(s == "")

/-- Python `eye in [...]` membership test (`None in [...]` is `False` for a
list of strings). -/
def eye_in (eye : Option String) (xs : List String) : Bool :=
  match eye with
  | none => false
  | some s => xs.contains s

/-- `int(x * 1.2)`: the 20% curious inflation, exact as `6*x/5` in the
relevant range (see the header comment). -/
def inflate (x : ℕ) : ℕ := 6 * x / 5

/-- `get_constraints(config, device)`: movement constraints for the gaze
offset, derived from the configured base eye sizes (inflated by 20% when
`current_curious` is set). -/
def get_constraints (config : Config) (st : AnimState) : ℤ × ℤ × ℤ × ℤ :=
  let eye_width_left : ℤ :=
    if st.current_curious then (inflate config.left.width : ℤ) else (config.left.width : ℤ)
  let eye_width_right : ℤ :=
    if st.current_curious then (inflate config.right.width : ℤ) else (config.right.width : ℤ)
  let eye_height_left : ℤ :=
    if st.current_curious then (inflate config.left.height : ℤ) else (config.left.height : ℤ)
  let eye_height_right : ℤ :=
    if st.current_curious then (inflate config.right.height : ℤ) else (config.right.height : ℤ)
  let min_x_offset : ℤ :=
    -((config.screen_width : ℤ) / 2 - eye_width_left - (config.distance : ℤ) / 2)
  let max_x_offset : ℤ :=
    (config.screen_width : ℤ) / 2 - eye_width_right - (config.distance : ℤ) / 2
  let min_y_offset : ℤ :=
    -((config.screen_height : ℤ) / 2 - eye_height_left / 2)
  let max_y_offset : ℤ :=
    (config.screen_height : ℤ) / 2 - eye_height_right / 2
  (min_x_offset, max_x_offset, min_y_offset, max_y_offset)

/-- The constraint function as the specification verbally describes it:
the X formulas as in the source, and for Y "the analogous formulas", i.e.
with heights in place of widths and the same distance term.  This
definition follows the spec's words, for comparison with
`get_constraints`, which follows the source. -/
def spec_constraints (config : Config) (st : AnimState) : ℤ × ℤ × ℤ × ℤ :=
  let eye_width_left : ℤ :=
    if st.current_curious then (inflate config.left.width : ℤ) else (config.left.width : ℤ)
  let eye_width_right : ℤ :=
    if st.current_curious then (inflate config.right.width : ℤ) else (config.right.width : ℤ)
  let eye_height_left : ℤ :=
    if st.current_curious then (inflate config.left.height : ℤ) else (config.left.height : ℤ)
  let eye_height_right : ℤ :=
    if st.current_curious then (inflate config.right.height : ℤ) else (config.right.height : ℤ)
  let min_x_offset : ℤ :=
    -((config.screen_width : ℤ) / 2 - eye_width_left - (config.distance : ℤ) / 2)
  let max_x_offset : ℤ :=
    (config.screen_width : ℤ) / 2 - eye_width_right - (config.distance : ℤ) / 2
  let min_y_offset : ℤ :=
    -((config.screen_height : ℤ) / 2 - eye_height_left - (config.distance : ℤ) / 2)
  let max_y_offset : ℤ :=
    (config.screen_height : ℤ) / 2 - eye_height_right - (config.distance : ℤ) / 2
  (min_x_offset, max_x_offset, min_y_offset, max_y_offset)

/-- The speed table of `close_eyes`/`open_eyes`:
`{"fast": 4, "medium": 2, "slow": 1}.get(speed, 4)`. -/
def movement_speed (speed : String) : ℤ :=
  if speed = "fast" then 4
  else if speed = "medium" then 2
  else if speed = "slow" then 1
  else 4

/-- The speed table of `look`:
`{"slow": 0.5, "medium": 1, "fast": 2}.get(speed, 2)`. -/
def look_speed (speed : String) : ℚ :=
  if speed = "slow" then 1 / 2
  else if speed = "medium" then 1
  else if speed = "fast" then 2
  else 2

/-- One easing step toward a target, as written in the bodies of the `look`
and `change_face` loops: step up / down by `step`, clamped at the target. -/
def approach_q (cur target step : ℚ) : ℚ :=
  if cur < target then min (cur + step) target
  else if cur > target then max (cur - step) target
  else cur

/-- Integer version of the easing step (used by `change_face`, step 2). -/
def approach (cur target step : ℤ) : ℤ :=
  if cur < target then min (cur + step) target
  else if cur > target then max (cur - step) target
  else cur

/-- The convergence loop of `look` (`while x != tx or y != ty`, condition
checked before the body; each axis eased independently and clamped). -/
def look_loop (tx ty s : ℚ) : ℕ → ℚ × ℚ → Option (ℚ × ℚ)
  | fuel, (x, y) =>
    if x = tx ∧ y = ty then some (x, y)
    else
      match fuel with
      | 0 => none
      | n + 1 => look_loop tx ty s n (approach_q x tx s, approach_q y ty s)

/-- `look(device, config, direction, speed)`: derive the target offsets from
`get_constraints` and the 9-way direction table, then ease the gaze offsets
toward them. -/
def look (config : Config) (st : AnimState) (direction : String) (speed : String)
    (fuel : ℕ) : Option AnimState :=
  let c := get_constraints config st
  let min_x_offset := c.1
  let max_x_offset := c.2.1
  let min_y_offset := c.2.2.1
  let max_y_offset := c.2.2.2
  let target : ℤ × ℤ :=
    if direction = "L" then (min_x_offset, 0)
    else if direction = "R" then (max_x_offset, 0)
    else if direction = "T" then (0, min_y_offset)
    else if direction = "B" then (0, max_y_offset)
    else if direction = "TL" then (min_x_offset, min_y_offset)
    else if direction = "TR" then (max_x_offset, min_y_offset)
    else if direction = "BL" then (min_x_offset, max_y_offset)
    else if direction = "BR" then (max_x_offset, max_y_offset)
    else (0, 0)
  let s := look_speed speed
  (look_loop (target.1 : ℚ) (target.2 : ℚ) s fuel
      (st.current_offset_x, st.current_offset_y)).map
    (fun p => { st with current_offset_x := p.1, current_offset_y := p.2 })

/-- The convergence loop of `close_eyes` (`while True` with break checks
after the in-loop update; heights clamped below at 2). -/
def close_loop (eye : Option String) (s : ℤ) :
    ℕ → ℤ → ℤ → Option (ℤ × ℤ × Option String)
  | 0, _, _ => none
  | fuel + 1, hl, hr =>
    let hl' := if eye_in eye ["both", "left"] then max 2 (hl - s) else hl
    let hr' := if eye_in eye ["both", "right"] then max 2 (hr - s) else hr
    if (hl' ≤ 2 ∧ eye_in eye ["both", "left"] = true) ∧
        (hr' ≤ 2 ∧ eye_in eye ["both", "right"] = true) then
      some (hl', hr', some ("both"))
    else if hl' ≤ 2 ∧ eye_in eye ["left"] = true then
      some (hl', hr', some ("left"))
    else if hr' ≤ 2 ∧ eye_in eye ["right"] = true then
      some (hl', hr', some ("right"))
    else
      close_loop eye s fuel hl' hr'

/-- `close_eyes(device, config, eye, speed)`.  The `if current_eye_height_*
is None` defaults in the source are dead code (those globals always hold
ints) and are omitted. -/
def close_eyes (config : Config) (st : AnimState) (eye : Option String)
    (speed : String) (fuel : ℕ) : Option AnimState :=
  (close_loop eye (movement_speed speed) fuel
      st.current_eye_height_left st.current_eye_height_right).map
    (fun r =>
      { st with
        current_eye_height_left := r.1
        current_eye_height_right := r.2.1
        current_closed := r.2.2 })

/-- The forced re-initialisation of the eye heights at the top of
`open_eyes`, keyed on `current_closed`; `none` for the final `else` branch
(truthy but unrecognised `current_closed`), where `open_eyes` returns
without animating. -/
def open_forced : Option String → ℤ → ℤ → Option (ℤ × ℤ)
  | some s, l_orig, r_orig =>
    if s = "both" then some (2, 2)
    else if s = "left" then some (2, r_orig)
    else if s = "right" then some (l_orig, 2)
    else none
  | none, _, _ => none

/-- The convergence loop of `open_eyes` (`while True` with break checks after
the in-loop update; heights clamped above at the configured base heights).
`closed0` is the value `current_closed` had on entry, read by the break
branches. -/
def open_loop (eye : Option String) (s l_orig r_orig : ℤ) (closed0 : Option String) :
    ℕ → ℤ → ℤ → Option (ℤ × ℤ × Option String)
  | 0, _, _ => none
  | fuel + 1, hl, hr =>
    let hl' := if eye_in eye ["both", "left"] then min l_orig (hl + s) else hl
    let hr' := if eye_in eye ["both", "right"] then min r_orig (hr + s) else hr
    if (l_orig ≤ hl' ∧ eye_in eye ["both", "left"] = true) ∧
        (r_orig ≤ hr' ∧ eye_in eye ["both", "right"] = true) then
      some (hl', hr', none)
    else if l_orig ≤ hl' ∧ eye_in eye ["both", "left"] = true then
      some (hl', hr', if closed0 = some ("both") then some ("right") else none)
    else if r_orig ≤ hr' ∧ eye_in eye ["both", "right"] = true then
      some (hl', hr', if closed0 = some ("both") then some ("left") else none)
    else
      open_loop eye s l_orig r_orig closed0 fuel hl' hr'

/-- `open_eyes(device, config, eye, speed)`: a no-op when `current_closed`
is falsy; otherwise heights are forced to the closed configuration keyed on
`current_closed` and then eased back toward the configured base heights. -/
def open_eyes (config : Config) (st : AnimState) (eye : Option String)
    (speed : String) (fuel : ℕ) : Option AnimState :=
  if truthy st.current_closed = false then some st
  else
    let l_orig : ℤ := (config.left.height : ℤ)
    let r_orig : ℤ := (config.right.height : ℤ)
    match open_forced st.current_closed l_orig r_orig with
    | none => some st
    | some h0 =>
      (open_loop eye (movement_speed speed) l_orig r_orig st.current_closed fuel
          h0.1 h0.2).map
        (fun r =>
          { st with
            current_eye_height_left := r.1
            current_eye_height_right := r.2.1
            current_closed := r.2.2 })

/-- `blink_eyes(device, config, eye, speed)`: `close_eyes` then `open_eyes`
with the same arguments. -/
def blink_eyes (config : Config) (st : AnimState) (eye : Option String)
    (speed : String) (fuel : ℕ) : Option AnimState :=
  (close_eyes config st eye speed fuel).bind
    (fun st1 => open_eyes config st1 eye speed fuel)

/-- `curious_mode(device, config)`: sets the `current_curious` flag. -/
def curious_mode (st : AnimState) : AnimState :=
  { st with current_curious := true }

/-- The per-expression eyelid target table of `change_face` (targets are
derived from the *current* eye heights). -/
def face_targets (new_face : String) (hl hr : ℤ) : Lids :=
  if new_face = "happy" then ⟨0, 0, hl / 2, 0, 0, hr / 2⟩
  else if new_face = "angry" then ⟨hl / 2, 0, 0, hr / 2, 0, 0⟩
  else if new_face = "tired" then ⟨0, hl / 2, 0, 0, hr / 2, 0⟩
  else ⟨0, 0, 0, 0, 0, 0⟩

/-- One pass of the `change_face` adjustment over all six eyelid fields
(`adjustment_speed = 2`). -/
def step_lids (cur tgt : Lids) : Lids :=
  ⟨approach cur.top_inner_left tgt.top_inner_left 2,
    approach cur.top_outer_left tgt.top_outer_left 2,
    approach cur.bottom_left tgt.bottom_left 2,
    approach cur.top_inner_right tgt.top_inner_right 2,
    approach cur.top_outer_right tgt.top_outer_right 2,
    approach cur.bottom_right tgt.bottom_right 2⟩

/-- The convergence loop of `change_face` (`while any(cur != tgt)`, condition
checked before the body). -/
def change_face_loop (tgt : Lids) : ℕ → Lids → Option Lids
  | fuel, cur =>
    if cur = tgt then some cur
    else
      match fuel with
      | 0 => none
      | n + 1 => change_face_loop tgt n (step_lids cur tgt)

/-- `change_face(device, config, new_face)`: update `current_face`
(defaulting to the current one) and ease all six eyelid heights toward the
per-expression targets. -/
def change_face (config : Config) (st : AnimState) (new_face : Option String)
    (fuel : ℕ) : Option AnimState :=
  let nf := new_face.getD st.current_face
  let tgt := face_targets nf st.current_eye_height_left st.current_eye_height_right
  (change_face_loop tgt fuel st.lids).map
    (fun l => { st with current_face := nf, lids := l })

/-- The command surface of the core, with the arguments as the source's
demo script may pass them (arbitrary strings / `None`). -/
inductive Cmd where
  | changeFace (new_face : Option String)
  | lookCmd (direction : String) (speed : String)
  | closeEyes (eye : Option String) (speed : String)
  | openEyes (eye : Option String) (speed : String)
  | blink (eye : Option String) (speed : String)
  | curious
deriving DecidableEq

/-- Execute one command with a given fuel budget for its convergence loop. -/
def runCmd (config : Config) : Cmd → ℕ → AnimState → Option AnimState
  | .changeFace nf, fuel, st => change_face config st nf fuel
  | .lookCmd dir speed, fuel, st => look config st dir speed fuel
  | .closeEyes eye speed, fuel, st => close_eyes config st eye speed fuel
  | .openEyes eye speed, fuel, st => open_eyes config st eye speed fuel
  | .blink eye speed, fuel, st => blink_eyes config st eye speed fuel
  | .curious, _, st => some (curious_mode st)

/-- States reachable from the initial state by finished commands. -/
inductive Reachable (config : Config) : AnimState → Prop
  | init : Reachable config (initState config)
  | step {st st' : AnimState} (c : Cmd) (fuel : ℕ) :
      Reachable config st → runCmd config c fuel st = some st' →
      Reachable config st'

/-! ### Claim C3: the constraint formulas -/

/-- C3, counterexample: at the default configuration (non-curious), the
source's `get_constraints` and the spec's verbal formulas ("analogous for Y",
i.e. with the full eye height and the distance term) disagree on the Y
components: the code yields `(minY, maxY) = (-16, 16)` (half eye height, no
distance term), the claimed analogous formulas yield `(5, -5)`. -/
theorem c3_spec_formula_differs :
    get_constraints defaultConfig (initState defaultConfig) = (-27, 27, -16, 16) ∧
    spec_constraints defaultConfig (initState defaultConfig) = (-27, 27, 5, -5) ∧
    get_constraints defaultConfig (initState defaultConfig) ≠
      spec_constraints defaultConfig (initState defaultConfig) := by
  refine ⟨rfl, rfl, ?_⟩
  decide

/-- C3, amended: `get_constraints` returns
`minX = -(halfWidth - eyeWidthLeft - distance/2)`,
`maxX = halfWidth - eyeWidthRight - distance/2` exactly as claimed, but the
Y formulas use *half* the eye heights and *no* distance term:
`minY = -(halfHeight - eyeHeightLeft/2)`, `maxY = halfHeight -
eyeHeightRight/2`; widths and heights are inflated by 20% (with `int`
truncation) when `curious` is set and used unchanged otherwise. -/
theorem c3_constraints_formula (config : Config) (st : AnimState) :
    get_constraints config st =
      (-((config.screen_width : ℤ) / 2 -
          (if st.current_curious then (inflate config.left.width : ℤ)
            else (config.left.width : ℤ)) - (config.distance : ℤ) / 2),
        (config.screen_width : ℤ) / 2 -
          (if st.current_curious then (inflate config.right.width : ℤ)
            else (config.right.width : ℤ)) - (config.distance : ℤ) / 2,
        -((config.screen_height : ℤ) / 2 -
          (if st.current_curious then (inflate config.left.height : ℤ)
            else (config.left.height : ℤ)) / 2),
        (config.screen_height : ℤ) / 2 -
          (if st.current_curious then (inflate config.right.height : ℤ)
            else (config.right.height : ℤ)) / 2) := rfl

/-! ### Claim C4: the constraints bracket zero -/

/-- A configuration witnessing that eye sizes below half the screen are not
enough for the constraints to bracket zero: a large inter-eye distance
(70) pushes `minX` positive. -/
def wideDistanceConfig : Config :=
  { screen_width := 128
    screen_height := 64
    fps := 30
    distance := 70
    left := { width := 32, height := 30, roundness := 8 }
    right := { width := 32, height := 30, roundness := 8 } }

/-- C4, counterexample: under `wideDistanceConfig` (eye widths 32 < 64 =
half screen width, eye heights 30 < 32 = half screen height, non-curious
state), `get_constraints` returns `minX = 3 > 0`. -/
theorem c4_distance_breaks_bracketing :
    wideDistanceConfig.left.width < wideDistanceConfig.screen_width / 2 ∧
    wideDistanceConfig.right.width < wideDistanceConfig.screen_width / 2 ∧
    wideDistanceConfig.left.height < wideDistanceConfig.screen_height / 2 ∧
    wideDistanceConfig.right.height < wideDistanceConfig.screen_height / 2 ∧
    (initState wideDistanceConfig).current_curious = false ∧
    (get_constraints wideDistanceConfig (initState wideDistanceConfig)).1 = 3 ∧
    ¬ (get_constraints wideDistanceConfig (initState wideDistanceConfig)).1 ≤ 0 := by
  refine ⟨?_, ?_, ?_, ?_, rfl, rfl, ?_⟩ <;> decide

/-- C4, amended: the constraints bracket zero whenever each eye width —
after the 20% inflation if the state is curious — plus half the inter-eye
distance fits in half the screen width, and each base eye height is smaller
than half the screen height (the claim's original hypothesis on widths
ignored the distance term and the curious inflation). -/
theorem c4_constraints_bracket_zero (config : Config) (st : AnimState)
    (hwl : (if st.current_curious then inflate config.left.width
        else config.left.width) + config.distance / 2 ≤ config.screen_width / 2)
    (hwr : (if st.current_curious then inflate config.right.width
        else config.right.width) + config.distance / 2 ≤ config.screen_width / 2)
    (hhl : config.left.height < config.screen_height / 2)
    (hhr : config.right.height < config.screen_height / 2) :
    (get_constraints config st).1 ≤ 0 ∧ 0 ≤ (get_constraints config st).2.1 ∧
    (get_constraints config st).2.2.1 ≤ 0 ∧ 0 ≤ (get_constraints config st).2.2.2 := by
  unfold get_constraints inflate at *
  cases h : st.current_curious <;>
    simp only [h, if_true, if_false, Bool.false_eq_true, Bool.true_eq_false] at hwl hwr ⊢ <;>
    refine ⟨?_, ?_, ?_, ?_⟩ <;> omega

/-- C4, witness: the amended theorem applied at the default configuration
with 30-pixel-high eyes. -/
theorem c4_constraints_bracket_zero_witness :
    ((get_constraints
        { defaultConfig with
            left := { width := 32, height := 30, roundness := 8 }
            right := { width := 32, height := 30, roundness := 8 } }
        (initState defaultConfig)).1 ≤ 0 ∧
      0 ≤ (get_constraints
        { defaultConfig with
            left := { width := 32, height := 30, roundness := 8 }
            right := { width := 32, height := 30, roundness := 8 } }
        (initState defaultConfig)).2.1 ∧
      (get_constraints
        { defaultConfig with
            left := { width := 32, height := 30, roundness := 8 }
            right := { width := 32, height := 30, roundness := 8 } }
        (initState defaultConfig)).2.2.1 ≤ 0 ∧
      0 ≤ (get_constraints
        { defaultConfig with
            left := { width := 32, height := 30, roundness := 8 }
            right := { width := 32, height := 30, roundness := 8 } }
        (initState defaultConfig)).2.2.2) :=
  c4_constraints_bracket_zero _ _ (by decide) (by decide) (by decide) (by decide)

/-! ### Convergence of the `close_eyes` / `open_eyes` loops -/

/-- Every entry of the speed table is at least 1 (the dictionary default
is 4). -/
theorem one_le_movement_speed (speed : String) : 1 ≤ movement_speed speed := by
  unfold movement_speed
  split_ifs <;> norm_num

/-- Arithmetic helper for fuel bounds. -/
theorem le_two_add_mul {s a F : ℤ} (hs : 1 ≤ s) (h : a ≤ F) (hF : 0 ≤ F) :
    a ≤ 2 + s * F := by nlinarith

/-- `close_eyes` with scope `"left"`: the left height is driven to exactly 2,
the right height untouched, and `current_closed` set to `"left"`. -/
theorem close_loop_left (s : ℤ) (hs : 1 ≤ s) :
    ∀ (fuel : ℕ) (hl hr : ℤ), 1 ≤ fuel → hl ≤ 2 + s * fuel →
      close_loop (some ("left")) s fuel hl hr = some (2, hr, some ("left")) := by
  intro fuel
  induction fuel with
  | zero => intro hl hr h1 _; exact absurd h1 (by omega)
  | succ n ih =>
    intro hl hr _ hbound
    have e1 : eye_in (some ("left")) ["both", "left"] = true := rfl
    have e2 : eye_in (some ("left")) ["both", "right"] = false := rfl
    have e3 : eye_in (some ("left")) ["left"] = true := rfl
    have e4 : eye_in (some ("left")) ["right"] = false := rfl
    simp only [close_loop, e1, e2, e3, e4, if_true, if_false, Bool.false_eq_true,
      and_false, false_and, and_true, ite_false, ite_true]
    by_cases hc : max 2 (hl - s) ≤ 2
    · rw [if_pos hc]
      have : max 2 (hl - s) = 2 := by omega
      rw [this]
    · rw [if_neg hc]
      have hn : 1 ≤ n := by
        rcases max_choice 2 (hl - s) with h | h <;> rw [h] at hc <;> push_cast at hbound ⊢ <;> nlinarith
      have hb : max 2 (hl - s) ≤ 2 + s * n := by
        rcases max_choice 2 (hl - s) with h | h <;> rw [h] <;> push_cast at hbound ⊢ <;> nlinarith
      exact ih _ _ hn hb

/-- `close_eyes` with scope `"right"`, symmetric to `close_loop_left`. -/
theorem close_loop_right (s : ℤ) (hs : 1 ≤ s) :
    ∀ (fuel : ℕ) (hl hr : ℤ), 1 ≤ fuel → hr ≤ 2 + s * fuel →
      close_loop (some ("right")) s fuel hl hr = some (hl, 2, some ("right")) := by
  intro fuel
  induction fuel with
  | zero => intro hl hr h1 _; exact absurd h1 (by omega)
  | succ n ih =>
    intro hl hr _ hbound
    have e1 : eye_in (some ("right")) ["both", "left"] = false := rfl
    have e2 : eye_in (some ("right")) ["both", "right"] = true := rfl
    have e3 : eye_in (some ("right")) ["left"] = false := rfl
    have e4 : eye_in (some ("right")) ["right"] = true := rfl
    simp only [close_loop, e1, e2, e3, e4, if_true, if_false, Bool.false_eq_true,
      and_false, false_and, and_true, ite_false, ite_true]
    by_cases hc : max 2 (hr - s) ≤ 2
    · rw [if_pos hc]
      have : max 2 (hr - s) = 2 := by omega
      rw [this]
    · rw [if_neg hc]
      have hn : 1 ≤ n := by
        rcases max_choice 2 (hr - s) with h | h <;> rw [h] at hc <;> push_cast at hbound ⊢ <;> nlinarith
      have hb : max 2 (hr - s) ≤ 2 + s * n := by
        rcases max_choice 2 (hr - s) with h | h <;> rw [h] <;> push_cast at hbound ⊢ <;> nlinarith
      exact ih _ _ hn hb

/-- `close_eyes` with scope `"both"`: both heights driven to exactly 2 and
`current_closed` set to `"both"`. -/
theorem close_loop_both (s : ℤ) (hs : 1 ≤ s) :
    ∀ (fuel : ℕ) (hl hr : ℤ), 1 ≤ fuel → hl ≤ 2 + s * fuel → hr ≤ 2 + s * fuel →
      close_loop (some ("both")) s fuel hl hr = some (2, 2, some ("both")) := by
  intro fuel
  induction fuel with
  | zero => intro hl hr h1 _ _; exact absurd h1 (by omega)
  | succ n ih =>
    intro hl hr _ hbl hbr
    have e1 : eye_in (some ("both")) ["both", "left"] = true := rfl
    have e2 : eye_in (some ("both")) ["both", "right"] = true := rfl
    have e3 : eye_in (some ("both")) ["left"] = false := rfl
    have e4 : eye_in (some ("both")) ["right"] = false := rfl
    simp only [close_loop, e1, e2, e3, e4, if_true, if_false, Bool.false_eq_true,
      and_false, false_and, and_true, ite_false, ite_true]
    by_cases hc : max 2 (hl - s) ≤ 2 ∧ max 2 (hr - s) ≤ 2
    · rw [if_pos hc]
      have h1 : max 2 (hl - s) = 2 := by omega
      have h2 : max 2 (hr - s) = 2 := by omega
      rw [h1, h2]
    · rw [if_neg hc]
      have hn : 1 ≤ n := by
        rcases max_choice 2 (hl - s) with h | h <;> rcases max_choice 2 (hr - s) with h' | h' <;>
          rw [h, h'] at hc <;> push_cast at hbl hbr ⊢ <;>
          [skip; skip; skip; skip] <;> by_contra hn0 <;>
          have : (n : ℤ) = 0 := by omega
        all_goals simp [this] at hbl hbr; omega
      have hb1 : max 2 (hl - s) ≤ 2 + s * n := by
        rcases max_choice 2 (hl - s) with h | h <;> rw [h] <;> push_cast at hbl ⊢ <;> nlinarith
      have hb2 : max 2 (hr - s) ≤ 2 + s * n := by
        rcases max_choice 2 (hr - s) with h | h <;> rw [h] <;> push_cast at hbr ⊢ <;> nlinarith
      exact ih _ _ hn hb1 hb2

/-- `open_eyes` loop with scope `"left"`: the left height is driven to
exactly `l_orig`, the right height untouched; `current_closed` becomes
`"right"` if it was `"both"` on entry and `none` otherwise. -/
theorem open_loop_left (s l_orig r_orig : ℤ) (closed0 : Option String) (hs : 1 ≤ s) :
    ∀ (fuel : ℕ) (hl hr : ℤ), 1 ≤ fuel → l_orig ≤ hl + s * fuel →
      open_loop (some ("left")) s l_orig r_orig closed0 fuel hl hr =
        some (l_orig, hr,
          if closed0 = some ("both") then some ("right") else none) := by
  intro fuel
  induction fuel with
  | zero => intro hl hr h1 _; exact absurd h1 (by omega)
  | succ n ih =>
    intro hl hr _ hbound
    have e1 : eye_in (some ("left")) ["both", "left"] = true := rfl
    have e2 : eye_in (some ("left")) ["both", "right"] = false := rfl
    simp only [open_loop, e1, e2, if_true, if_false, Bool.false_eq_true,
      and_false, false_and, and_true, ite_false, ite_true]
    by_cases hc : l_orig ≤ min l_orig (hl + s)
    · rw [if_pos hc]
      have : min l_orig (hl + s) = l_orig := by omega
      rw [this]
    · rw [if_neg hc]
      have hlt : hl + s < l_orig := by omega
      have hn : 1 ≤ n := by
        push_cast at hbound
        nlinarith
      have hb : l_orig ≤ min l_orig (hl + s) + s * n := by
        push_cast at hbound ⊢
        have : min l_orig (hl + s) = hl + s := by omega
        rw [this]
        nlinarith
      exact ih _ _ hn hb

/-- `open_eyes` loop with scope `"right"`, symmetric to `open_loop_left`. -/
theorem open_loop_right (s l_orig r_orig : ℤ) (closed0 : Option String) (hs : 1 ≤ s) :
    ∀ (fuel : ℕ) (hl hr : ℤ), 1 ≤ fuel → r_orig ≤ hr + s * fuel →
      open_loop (some ("right")) s l_orig r_orig closed0 fuel hl hr =
        some (hl, r_orig,
          if closed0 = some ("both") then some ("left") else none) := by
  intro fuel
  induction fuel with
  | zero => intro hl hr h1 _; exact absurd h1 (by omega)
  | succ n ih =>
    intro hl hr _ hbound
    have e1 : eye_in (some ("right")) ["both", "left"] = false := rfl
    have e2 : eye_in (some ("right")) ["both", "right"] = true := rfl
    simp only [open_loop, e1, e2, if_true, if_false, Bool.false_eq_true,
      and_false, false_and, and_true, ite_false, ite_true]
    by_cases hc : r_orig ≤ min r_orig (hr + s)
    · rw [if_pos hc]
      have : min r_orig (hr + s) = r_orig := by omega
      rw [this]
    · rw [if_neg hc]
      have hlt : hr + s < r_orig := by omega
      have hn : 1 ≤ n := by
        push_cast at hbound
        nlinarith
      have hb : r_orig ≤ min r_orig (hr + s) + s * n := by
        push_cast at hbound ⊢
        have : min r_orig (hr + s) = hr + s := by omega
        rw [this]
        nlinarith
      exact ih _ _ hn hb

/-- `open_eyes` loop with scope `"both"` when the two base heights are equal
and the two current heights are equal: both heights move in lockstep, reach
the base together, and `current_closed` becomes `none`. -/
theorem open_loop_both_eq (s l_orig : ℤ) (closed0 : Option String) (hs : 1 ≤ s) :
    ∀ (fuel : ℕ) (h : ℤ), 1 ≤ fuel → l_orig ≤ h + s * fuel →
      open_loop (some ("both")) s l_orig l_orig closed0 fuel h h =
        some (l_orig, l_orig, none) := by
  intro fuel
  induction fuel with
  | zero => intro h h1 _; exact absurd h1 (by omega)
  | succ n ih =>
    intro h _ hbound
    have e1 : eye_in (some ("both")) ["both", "left"] = true := rfl
    have e2 : eye_in (some ("both")) ["both", "right"] = true := rfl
    simp only [open_loop, e1, e2, if_true, if_false, Bool.false_eq_true,
      and_false, false_and, and_true, ite_false, ite_true]
    by_cases hc : l_orig ≤ min l_orig (h + s)
    · rw [if_pos ⟨hc, hc⟩]
      have : min l_orig (h + s) = l_orig := by omega
      rw [this]
    · have hcc : ¬ (l_orig ≤ min l_orig (h + s) ∧ l_orig ≤ min l_orig (h + s)) := by
        intro hx
        exact hc hx.1
      rw [if_neg hcc, if_neg hc, if_neg hc]
      have hlt : h + s < l_orig := by omega
      have hn : 1 ≤ n := by
        push_cast at hbound
        nlinarith
      have hb : l_orig ≤ min l_orig (h + s) + s * n := by
        push_cast at hbound ⊢
        have : min l_orig (h + s) = h + s := by omega
        rw [this]
        nlinarith
      exact ih _ hn hb

/-- Reduction of `open_eyes` on entry with `current_closed = "left"`: the
forced heights are `(2, rightBase)` and the loop is entered. -/
theorem open_eyes_entered_left (config : Config) (st : AnimState) (speed : String)
    (fuel : ℕ) (eye : Option String) (hcl : st.current_closed = some ("left")) :
    open_eyes config st eye speed fuel =
      (open_loop eye (movement_speed speed) (config.left.height : ℤ)
        (config.right.height : ℤ) (some ("left")) fuel 2 (config.right.height : ℤ)).map
        (fun r : ℤ × ℤ × Option String => { st with
          current_eye_height_left := r.1,
          current_eye_height_right := r.2.1,
          current_closed := r.2.2 }) := by
  unfold open_eyes
  rw [hcl]
  rfl

/-- Reduction of `open_eyes` on entry with `current_closed = "right"`. -/
theorem open_eyes_entered_right (config : Config) (st : AnimState) (speed : String)
    (fuel : ℕ) (eye : Option String) (hcl : st.current_closed = some ("right")) :
    open_eyes config st eye speed fuel =
      (open_loop eye (movement_speed speed) (config.left.height : ℤ)
        (config.right.height : ℤ) (some ("right")) fuel (config.left.height : ℤ) 2).map
        (fun r : ℤ × ℤ × Option String => { st with
          current_eye_height_left := r.1,
          current_eye_height_right := r.2.1,
          current_closed := r.2.2 }) := by
  unfold open_eyes
  rw [hcl]
  rfl

/-- Reduction of `open_eyes` on entry with `current_closed = "both"`. -/
theorem open_eyes_entered_both (config : Config) (st : AnimState) (speed : String)
    (fuel : ℕ) (eye : Option String) (hcl : st.current_closed = some ("both")) :
    open_eyes config st eye speed fuel =
      (open_loop eye (movement_speed speed) (config.left.height : ℤ)
        (config.right.height : ℤ) (some ("both")) fuel 2 2).map
        (fun r : ℤ × ℤ × Option String => { st with
          current_eye_height_left := r.1,
          current_eye_height_right := r.2.1,
          current_closed := r.2.2 }) := by
  unfold open_eyes
  rw [hcl]
  rfl

/-- `open_eyes(left, _)` invoked while `current_closed = "left"`: the
heights are forced to `(2, rightBase)`, the left height eased back to its
base, and `current_closed` becomes `none`. -/
theorem open_eyes_from_left (config : Config) (st : AnimState) (speed : String)
    (fuel : ℕ) (hcl : st.current_closed = some ("left"))
    (hfuel : 1 ≤ fuel)
    (hb : (config.left.height : ℤ) ≤ 2 + movement_speed speed * fuel) :
    open_eyes config st (some ("left")) speed fuel =
      some { st with
        current_eye_height_left := (config.left.height : ℤ),
        current_eye_height_right := (config.right.height : ℤ),
        current_closed := none } := by
  rw [open_eyes_entered_left config st speed fuel (some ("left")) hcl]
  rw [open_loop_left (movement_speed speed) _ _ (some ("left"))
    (one_le_movement_speed speed) fuel 2 _ hfuel hb]
  rfl

/-- `open_eyes(right, _)` invoked while `current_closed = "right"`. -/
theorem open_eyes_from_right (config : Config) (st : AnimState) (speed : String)
    (fuel : ℕ) (hcl : st.current_closed = some ("right"))
    (hfuel : 1 ≤ fuel)
    (hb : (config.right.height : ℤ) ≤ 2 + movement_speed speed * fuel) :
    open_eyes config st (some ("right")) speed fuel =
      some { st with
        current_eye_height_left := (config.left.height : ℤ),
        current_eye_height_right := (config.right.height : ℤ),
        current_closed := none } := by
  rw [open_eyes_entered_right config st speed fuel (some ("right")) hcl]
  rw [open_loop_right (movement_speed speed) _ _ (some ("right"))
    (one_le_movement_speed speed) fuel _ 2 hfuel hb]
  rfl

/-- `open_eyes(both, _)` invoked while `current_closed = "both"`, for equal
configured base heights: both heights eased back to the common base and
`current_closed` becomes `none`. -/
theorem open_eyes_from_both (config : Config) (st : AnimState) (speed : String)
    (fuel : ℕ) (hcl : st.current_closed = some ("both"))
    (hLR : config.left.height = config.right.height)
    (hfuel : 1 ≤ fuel)
    (hb : (config.left.height : ℤ) ≤ 2 + movement_speed speed * fuel) :
    open_eyes config st (some ("both")) speed fuel =
      some { st with
        current_eye_height_left := (config.left.height : ℤ),
        current_eye_height_right := (config.right.height : ℤ),
        current_closed := none } := by
  have hLRz : (config.left.height : ℤ) = (config.right.height : ℤ) := by
    exact_mod_cast hLR
  rw [open_eyes_entered_both config st speed fuel (some ("both")) hcl]
  rw [← hLRz]
  rw [open_loop_both_eq (movement_speed speed) _ (some ("both"))
    (one_le_movement_speed speed) fuel 2 hfuel hb]
  rfl

/-! ### Claim C9: `open_eyes` is a no-op when the eyes are open -/

/-- C9, confirmed: if `current_closed` is `none` when `open_eyes` is
invoked, the call returns the state unchanged, for every eye scope, speed
and fuel budget. -/
theorem c9_open_eyes_noop (config : Config) (st : AnimState) (eye : Option String)
    (speed : String) (fuel : ℕ) (h : st.current_closed = none) :
    open_eyes config st eye speed fuel = some st := by
  unfold open_eyes
  rw [h]
  rfl

/-- C9, witness: `open_eyes` on the (open-eyed) initial state. -/
theorem c9_open_eyes_noop_witness :
    open_eyes defaultConfig (initState defaultConfig) none ("medium") 0 =
      some (initState defaultConfig) :=
  c9_open_eyes_noop defaultConfig (initState defaultConfig) none ("medium") 0 rfl

/-! ### Claim C1: close then open round-trips from the fully open state -/

/-- A configuration whose two eyes have different base heights (4 and 8). -/
def unequalConfig : Config :=
  { screen_width := 128
    screen_height := 64
    fps := 30
    distance := 10
    left := { width := 32, height := 4, roundness := 8 }
    right := { width := 32, height := 8, roundness := 8 } }

/-- C1, counterexample: with base heights 4 and 8, `close_eyes(both, fast)`
followed by `open_eyes(both, fast)` (i.e. `blink_eyes`) from the fully open
state leaves the right eye at height 6 — not its base height 8 — and
`closedState = "right"`, not `none`: the open loop breaks as soon as the
faster-finishing left eye reaches its base. -/
theorem c1_both_unequal_counterexample :
    (blink_eyes unequalConfig (initState unequalConfig) (some ("both")) ("fast") 100).map
        (fun s => (s.current_eye_height_left, s.current_eye_height_right,
          s.current_closed)) =
      some (4, 6, some ("right")) ∧
    (blink_eyes unequalConfig (initState unequalConfig) (some ("both")) ("fast") 100).map
        (fun s => (s.current_eye_height_left, s.current_eye_height_right,
          s.current_closed)) ≠
      some ((unequalConfig.left.height : ℤ), (unequalConfig.right.height : ℤ), none) := by
  constructor
  · decide
  · decide

/-- C1, amended: from the fully open state, `close_eyes(eye, speed)` followed
by `open_eyes(eye, speed)` (`blink_eyes`) terminates with both eye heights
at their configured base heights and `closedState = none`, for scopes
`left` and `right` under every configuration, and for scope `both` provided
the two configured base heights are equal (the counterexample above shows
the proviso is necessary). -/
theorem c1_blink_round_trip (config : Config) (eye : Option String) (speed : String)
    (heye : eye = some ("left") ∨ eye = some ("right") ∨ eye = some ("both"))
    (hboth : eye = some ("both") → config.left.height = config.right.height) :
    ∃ st', blink_eyes config (initState config) eye speed
        (config.left.height + config.right.height + 2) = some st' ∧
      st'.current_eye_height_left = (config.left.height : ℤ) ∧
      st'.current_eye_height_right = (config.right.height : ℤ) ∧
      st'.current_closed = none := by
  have hs := one_le_movement_speed speed
  have hF1 : 1 ≤ config.left.height + config.right.height + 2 := by omega
  have h0F : (0 : ℤ) ≤ ((config.left.height + config.right.height + 2 : ℕ) : ℤ) := by
    positivity
  have hbl : (config.left.height : ℤ) ≤ 2 + movement_speed speed *
      ((config.left.height + config.right.height + 2 : ℕ) : ℤ) :=
    le_two_add_mul hs (by push_cast; omega) h0F
  have hbr : (config.right.height : ℤ) ≤ 2 + movement_speed speed *
      ((config.left.height + config.right.height + 2 : ℕ) : ℤ) :=
    le_two_add_mul hs (by push_cast; omega) h0F
  rcases heye with he | he | he <;> subst he
  · refine ⟨{ initState config with
        current_eye_height_left := (config.left.height : ℤ),
        current_eye_height_right := (config.right.height : ℤ),
        current_closed := none }, ?_, rfl, rfl, rfl⟩
    unfold blink_eyes close_eyes
    simp only [initState]
    rw [close_loop_left (movement_speed speed) hs _ _ _ hF1 hbl]
    exact open_eyes_from_left config _ speed _ rfl hF1 hbl
  · refine ⟨{ initState config with
        current_eye_height_left := (config.left.height : ℤ),
        current_eye_height_right := (config.right.height : ℤ),
        current_closed := none }, ?_, rfl, rfl, rfl⟩
    unfold blink_eyes close_eyes
    simp only [initState]
    rw [close_loop_right (movement_speed speed) hs _ _ _ hF1 hbr]
    exact open_eyes_from_right config _ speed _ rfl hF1 hbr
  · have hLR := hboth rfl
    have hLRz : (config.left.height : ℤ) = (config.right.height : ℤ) := by
      exact_mod_cast hLR
    refine ⟨{ initState config with
        current_eye_height_left := (config.left.height : ℤ),
        current_eye_height_right := (config.right.height : ℤ),
        current_closed := none }, ?_, rfl, rfl, rfl⟩
    unfold blink_eyes close_eyes
    simp only [initState]
    rw [close_loop_both (movement_speed speed) hs _ _ _ hF1 hbl hbr]
    exact open_eyes_from_both config _ speed _ rfl hLR hF1 hbl

/-- C1, witness: the amended round trip at the default configuration with
scope `both` and speed `fast`. -/
theorem c1_blink_round_trip_witness :
    ∃ st', blink_eyes defaultConfig (initState defaultConfig) (some ("both")) ("fast")
        (defaultConfig.left.height + defaultConfig.right.height + 2) = some st' ∧
      st'.current_eye_height_left = (defaultConfig.left.height : ℤ) ∧
      st'.current_eye_height_right = (defaultConfig.right.height : ℤ) ∧
      st'.current_closed = none :=
  c1_blink_round_trip defaultConfig (some ("both")) ("fast")
    (Or.inr (Or.inr rfl)) (fun _ => rfl)

/-! ### Claim C7: closing one eye while the other is already closed -/

/-- A state with the right eye fully closed (`current_closed = "right"`),
as produced by `close_eyes(right, _)` from the initial state. -/
def rightClosedState : AnimState :=
  { initState defaultConfig with
    current_eye_height_right := 2
    current_closed := some ("right") }

/-- C7, counterexample: invoking `close_eyes("left", fast)` while
`current_closed = "right"` terminates with `current_closed = "left"` — the
requested scope overwrites the previous value — not `"both"` as the claim's
union rule states.  (The break condition that would set `"both"` requires
`eye in ["both", "right"]`, which is false for `eye = "left"`.) -/
theorem c7_no_union_counterexample :
    (close_eyes defaultConfig rightClosedState (some ("left")) ("fast") 20).map
        (fun s => s.current_closed) = some (some ("left")) ∧
    (close_eyes defaultConfig rightClosedState (some ("left")) ("fast") 20).map
        (fun s => s.current_closed) ≠ some (some ("both")) := by
  constructor
  · decide
  · decide

/-- C7, amended: when `close_eyes("left", speed)` is invoked while
`current_closed = "right"`, the command terminates (for every speed, given
sufficient fuel) with `current_closed = "left"`: partial closes replace the
previously recorded scope instead of combining with it. -/
theorem c7_close_left_requested_scope (config : Config) (st : AnimState)
    (speed : String) (fuel : ℕ)
    (hclosed : st.current_closed = some ("right"))
    (hfuel : 1 ≤ fuel)
    (hbound : st.current_eye_height_left ≤ 2 + movement_speed speed * fuel) :
    close_eyes config st (some ("left")) speed fuel =
      some { st with
        current_eye_height_left := 2
        current_closed := some ("left") } := by
  unfold close_eyes
  rw [close_loop_left (movement_speed speed) (one_le_movement_speed speed)
    fuel _ _ hfuel hbound]
  rfl

/-- C7, witness: the amended theorem evaluated on `rightClosedState`. -/
theorem c7_close_left_requested_scope_witness :
    close_eyes defaultConfig rightClosedState (some ("left")) ("fast") 20 =
      some { rightClosedState with
        current_eye_height_left := 2
        current_closed := some ("left") } :=
  c7_close_left_requested_scope defaultConfig rightClosedState ("fast") 20
    rfl (by norm_num) (by decide)

/-! ### Claim C10: the loops never terminate for an invalid eye argument -/

/-- If `eye` is neither `"left"` nor `"both"`, it is not in
`["both", "left"]`. -/
theorem eye_in_bl_false (eye : Option String) (h1 : eye ≠ some ("left"))
    (h3 : eye ≠ some ("both")) : eye_in eye ["both", "left"] = false := by
  cases eye with
  | none => rfl
  | some a =>
    have ha1 : a ≠ "left" := fun h => h1 (by rw [h])
    have ha3 : a ≠ "both" := fun h => h3 (by rw [h])
    simp [eye_in, ha1, ha3]

/-- If `eye` is neither `"right"` nor `"both"`, it is not in
`["both", "right"]`. -/
theorem eye_in_br_false (eye : Option String) (h2 : eye ≠ some ("right"))
    (h3 : eye ≠ some ("both")) : eye_in eye ["both", "right"] = false := by
  cases eye with
  | none => rfl
  | some a =>
    have ha2 : a ≠ "right" := fun h => h2 (by rw [h])
    have ha3 : a ≠ "both" := fun h => h3 (by rw [h])
    simp [eye_in, ha2, ha3]

/-- If `eye` is not `"left"`, it is not in `["left"]`. -/
theorem eye_in_l_false (eye : Option String) (h1 : eye ≠ some ("left")) :
    eye_in eye ["left"] = false := by
  cases eye with
  | none => rfl
  | some a =>
    have ha1 : a ≠ "left" := fun h => h1 (by rw [h])
    simp [eye_in, ha1]

/-- If `eye` is not `"right"`, it is not in `["right"]`. -/
theorem eye_in_r_false (eye : Option String) (h2 : eye ≠ some ("right")) :
    eye_in eye ["right"] = false := by
  cases eye with
  | none => rfl
  | some a =>
    have ha2 : a ≠ "right" := fun h => h2 (by rw [h])
    simp [eye_in, ha2]

/-- For an invalid eye argument the `close_eyes` loop never breaks: every
fuel budget is exhausted. -/
theorem close_loop_stuck (eye : Option String) (s : ℤ)
    (h1 : eye ≠ some ("left")) (h2 : eye ≠ some ("right"))
    (h3 : eye ≠ some ("both")) :
    ∀ (fuel : ℕ) (hl hr : ℤ), close_loop eye s fuel hl hr = none := by
  intro fuel
  induction fuel with
  | zero => intro hl hr; rfl
  | succ n ih =>
    intro hl hr
    simp only [close_loop, eye_in_bl_false eye h1 h3, eye_in_br_false eye h2 h3,
      eye_in_l_false eye h1, eye_in_r_false eye h2, if_false, Bool.false_eq_true,
      and_false, false_and, ite_false]
    exact ih hl hr

/-- For an invalid eye argument the `open_eyes` loop never breaks. -/
theorem open_loop_stuck (eye : Option String) (s l_orig r_orig : ℤ)
    (closed0 : Option String)
    (h1 : eye ≠ some ("left")) (h2 : eye ≠ some ("right"))
    (h3 : eye ≠ some ("both")) :
    ∀ (fuel : ℕ) (hl hr : ℤ),
      open_loop eye s l_orig r_orig closed0 fuel hl hr = none := by
  intro fuel
  induction fuel with
  | zero => intro hl hr; rfl
  | succ n ih =>
    intro hl hr
    simp only [open_loop, eye_in_bl_false eye h1 h3, eye_in_br_false eye h2 h3,
      if_false, Bool.false_eq_true, and_false, false_and, ite_false]
    exact ih hl hr

/-- C10, confirmed: for any eye argument other than `"left"`, `"right"`,
`"both"` (including the default `None`), `close_eyes` never terminates (no
fuel budget suffices: the loop body changes no height and no break condition
can fire), and the same holds for `open_eyes` whenever its loop is entered,
i.e. whenever `current_closed` is one of `"left"`, `"right"`, `"both"`. -/
theorem c10_invalid_eye_loops_forever (config : Config) (st : AnimState)
    (eye : Option String) (speed : String)
    (h1 : eye ≠ some ("left")) (h2 : eye ≠ some ("right"))
    (h3 : eye ≠ some ("both")) :
    (∀ fuel, close_eyes config st eye speed fuel = none) ∧
    ((st.current_closed = some ("left") ∨ st.current_closed = some ("right") ∨
        st.current_closed = some ("both")) →
      ∀ fuel, open_eyes config st eye speed fuel = none) := by
  constructor
  · intro fuel
    unfold close_eyes
    rw [close_loop_stuck eye (movement_speed speed) h1 h2 h3 fuel]
    rfl
  · intro hcl fuel
    rcases hcl with hcl | hcl | hcl
    · rw [open_eyes_entered_left config st speed fuel eye hcl]
      rw [open_loop_stuck eye (movement_speed speed) _ _ (some ("left")) h1 h2 h3 fuel]
      rfl
    · rw [open_eyes_entered_right config st speed fuel eye hcl]
      rw [open_loop_stuck eye (movement_speed speed) _ _ (some ("right")) h1 h2 h3 fuel]
      rfl
    · rw [open_eyes_entered_both config st speed fuel eye hcl]
      rw [open_loop_stuck eye (movement_speed speed) _ _ (some ("both")) h1 h2 h3 fuel]
      rfl

/-- C10, witness: with `eye = None` and the right eye recorded closed,
neither command ever terminates. -/
theorem c10_invalid_eye_loops_forever_witness :
    (∀ fuel, close_eyes defaultConfig rightClosedState none ("medium") fuel = none) ∧
    ((rightClosedState.current_closed = some ("left") ∨
        rightClosedState.current_closed = some ("right") ∨
        rightClosedState.current_closed = some ("both")) →
      ∀ fuel, open_eyes defaultConfig rightClosedState none ("medium") fuel = none) :=
  c10_invalid_eye_loops_forever defaultConfig rightClosedState none ("medium")
    (by decide) (by decide) (by decide)

/-! ### Convergence of the `change_face` loop -/

/-- All six eyelid fields of `cur` are within `k` of those of `tgt`. -/
def lids_within (cur tgt : Lids) (k : ℤ) : Prop :=
  cur.top_inner_left - tgt.top_inner_left ≤ k ∧
  tgt.top_inner_left - cur.top_inner_left ≤ k ∧
  cur.top_outer_left - tgt.top_outer_left ≤ k ∧
  tgt.top_outer_left - cur.top_outer_left ≤ k ∧
  cur.bottom_left - tgt.bottom_left ≤ k ∧
  tgt.bottom_left - cur.bottom_left ≤ k ∧
  cur.top_inner_right - tgt.top_inner_right ≤ k ∧
  tgt.top_inner_right - cur.top_inner_right ≤ k ∧
  cur.top_outer_right - tgt.top_outer_right ≤ k ∧
  tgt.top_outer_right - cur.top_outer_right ≤ k ∧
  cur.bottom_right - tgt.bottom_right ≤ k ∧
  tgt.bottom_right - cur.bottom_right ≤ k

/-- The `change_face` loop reaches the target exactly, whenever the fuel
covers the largest initial distance at 2 px per iteration. -/
theorem change_face_loop_converges (tgt : Lids) :
    ∀ (fuel : ℕ) (cur : Lids), lids_within cur tgt (2 * fuel) →
      change_face_loop tgt fuel cur = some tgt := by
  intro fuel
  induction fuel with
  | zero =>
    intro cur h
    obtain ⟨a1, a2, b1, b2, c1, c2, d1, d2, e1, e2, f1, f2⟩ := h
    have hc : cur = tgt := by
      ext <;> omega
    rw [show change_face_loop tgt 0 cur =
        if cur = tgt then some cur else none from rfl, if_pos hc, hc]
  | succ n ih =>
    intro cur h
    rw [show change_face_loop tgt (n + 1) cur =
        if cur = tgt then some cur
        else change_face_loop tgt n (step_lids cur tgt) from rfl]
    by_cases hc : cur = tgt
    · rw [if_pos hc, hc]
    · rw [if_neg hc]
      apply ih
      unfold lids_within at h ⊢
      unfold step_lids
      push_cast at h ⊢
      obtain ⟨a1, a2, b1, b2, c1, c2, d1, d2, e1, e2, f1, f2⟩ := h
      refine ⟨?_, ?_, ?_, ?_, ?_, ?_, ?_, ?_, ?_, ?_, ?_, ?_⟩ <;>
        · unfold approach
          split_ifs <;> omega

/-! ### Claim C2: `change_face(happy)` then `change_face(default)` -/

/-- C2, confirmed: from any starting eyelid configuration (not just the ones
reachable from all-zero eyelids), `change_face(happy)` terminates with the
bottom lids at half the current eye heights and the four top lids at 0, and
a following `change_face(default)` terminates with all six eyelid fields
exactly 0 — each loop eases every field by 2 px per tick with the final
step clamped to the target. -/
theorem c2_change_face_happy_then_default (config : Config) (st : AnimState) :
    ∃ (fuel1 fuel2 : ℕ) (s1 s2 : AnimState),
      change_face config st (some ("happy")) fuel1 = some s1 ∧
      s1.lids = ⟨0, 0, st.current_eye_height_left / 2, 0, 0,
        st.current_eye_height_right / 2⟩ ∧
      s1.current_face = "happy" ∧
      change_face config s1 (some ("default")) fuel2 = some s2 ∧
      s2.lids = ⟨0, 0, 0, 0, 0, 0⟩ := by
  have ht1 : face_targets "happy" st.current_eye_height_left st.current_eye_height_right =
      ⟨0, 0, st.current_eye_height_left / 2, 0, 0, st.current_eye_height_right / 2⟩ := rfl
  have ht2 : ∀ x y : ℤ, face_targets "default" x y = ⟨0, 0, 0, 0, 0, 0⟩ :=
    fun x y => rfl
  refine ⟨st.lids.top_inner_left.natAbs + st.lids.top_outer_left.natAbs +
      (st.lids.bottom_left - st.current_eye_height_left / 2).natAbs +
      st.lids.top_inner_right.natAbs + st.lids.top_outer_right.natAbs +
      (st.lids.bottom_right - st.current_eye_height_right / 2).natAbs,
    (st.current_eye_height_left / 2).natAbs + (st.current_eye_height_right / 2).natAbs,
    { st with
      current_face := "happy"
      lids := ⟨0, 0, st.current_eye_height_left / 2, 0, 0,
        st.current_eye_height_right / 2⟩ },
    { st with
      current_face := "default"
      lids := ⟨0, 0, 0, 0, 0, 0⟩ },
    ?_, rfl, rfl, ?_, rfl⟩
  · have hw1 : lids_within st.lids
        ⟨0, 0, st.current_eye_height_left / 2, 0, 0, st.current_eye_height_right / 2⟩
        (2 * (st.lids.top_inner_left.natAbs + st.lids.top_outer_left.natAbs +
          (st.lids.bottom_left - st.current_eye_height_left / 2).natAbs +
          st.lids.top_inner_right.natAbs + st.lids.top_outer_right.natAbs +
          (st.lids.bottom_right - st.current_eye_height_right / 2).natAbs)) := by
      simp only [lids_within]
      refine ⟨?_, ?_, ?_, ?_, ?_, ?_, ?_, ?_, ?_, ?_, ?_, ?_⟩ <;> omega
    simp only [change_face, Option.getD_some, ht1]
    rw [change_face_loop_converges _ _ _ hw1]
    rfl
  · have hw2 : lids_within
        (⟨0, 0, st.current_eye_height_left / 2, 0, 0,
          st.current_eye_height_right / 2⟩ : Lids)
        ⟨0, 0, 0, 0, 0, 0⟩
        (2 * ((st.current_eye_height_left / 2).natAbs +
          (st.current_eye_height_right / 2).natAbs)) := by
      simp only [lids_within]
      refine ⟨?_, ?_, ?_, ?_, ?_, ?_, ?_, ?_, ?_, ?_, ?_, ?_⟩ <;> omega
    simp only [change_face, Option.getD_some, ht2]
    rw [change_face_loop_converges _ _ _ hw2]
    rfl

/-! ### Convergence of the `look` loop -/

/-- One easing step of `look` contracts the distance to the target by the
step size (clamping included). -/
theorem approach_q_within (cur tgt s k : ℚ) (hk : 0 ≤ k)
    (h1 : cur - tgt ≤ k + s) (h2 : tgt - cur ≤ k + s) :
    approach_q cur tgt s - tgt ≤ k ∧ tgt - approach_q cur tgt s ≤ k := by
  unfold approach_q
  split_ifs with hlt hgt
  · rcases min_cases (cur + s) tgt with ⟨hmin, hle⟩ | ⟨hmin, hle⟩ <;> rw [hmin] <;>
      constructor <;> linarith
  · rcases max_cases (cur - s) tgt with ⟨hmax, hle⟩ | ⟨hmax, hle⟩ <;> rw [hmax] <;>
      constructor <;> linarith
  · have heq : cur = tgt := le_antisymm (not_lt.1 hgt) (not_lt.1 hlt)
    subst heq
    constructor <;> simpa using hk

/-- The `look` loop reaches its target exactly on both axes whenever the
fuel covers the larger initial axis distance at `s` per iteration. -/
theorem look_loop_converges (tx ty s : ℚ) (hs : 0 < s) :
    ∀ (fuel : ℕ) (x y : ℚ),
      x - tx ≤ s * fuel → tx - x ≤ s * fuel →
      y - ty ≤ s * fuel → ty - y ≤ s * fuel →
      look_loop tx ty s fuel (x, y) = some (tx, ty) := by
  intro fuel
  induction fuel with
  | zero =>
    intro x y hx1 hx2 hy1 hy2
    push_cast at hx1 hx2 hy1 hy2
    have hx : x = tx := by linarith
    have hy : y = ty := by linarith
    rw [show look_loop tx ty s 0 (x, y) =
        if x = tx ∧ y = ty then some (x, y) else none from rfl,
      if_pos ⟨hx, hy⟩, hx, hy]
  | succ n ih =>
    intro x y hx1 hx2 hy1 hy2
    rw [show look_loop tx ty s (n + 1) (x, y) =
        if x = tx ∧ y = ty then some (x, y)
        else look_loop tx ty s n (approach_q x tx s, approach_q y ty s) from rfl]
    by_cases hc : x = tx ∧ y = ty
    · rw [if_pos hc, hc.1, hc.2]
    · rw [if_neg hc]
      have hk : (0 : ℚ) ≤ s * n := by positivity
      push_cast at hx1 hx2 hy1 hy2
      have hx := approach_q_within x tx s (s * n) hk (by linarith) (by linarith)
      have hy := approach_q_within y ty s (s * n) hk (by linarith) (by linarith)
      exact ih _ _ hx.1 hx.2 hy.1 hy.2

/-! ### Claim C5: the concrete 128x64 look scenario -/

/-- Reduction of `look(TR, fast)` at the initial default state: targets
`(maxX, minY) = (27, -16)` and step 2. -/
theorem look_tr_fast_red :
    look defaultConfig (initState defaultConfig) "TR" "fast" 100 =
      (look_loop (((27 : ℤ) : ℚ)) (((-16 : ℤ) : ℚ)) 2 100 (0, 0)).map
        (fun p : ℚ × ℚ => { initState defaultConfig with
          current_offset_x := p.1,
          current_offset_y := p.2 }) := rfl

/-- Reduction of `look(C, slow)` from the state reached by `look(TR, fast)`:
targets `(0, 0)` and step 1/2. -/
theorem look_c_slow_red :
    look defaultConfig
        { initState defaultConfig with
          current_offset_x := (((27 : ℤ) : ℚ)),
          current_offset_y := (((-16 : ℤ) : ℚ)) } "C" "slow" 200 =
      (look_loop (((0 : ℤ) : ℚ)) (((0 : ℤ) : ℚ)) (1 / 2) 200
          ((((27 : ℤ) : ℚ)), (((-16 : ℤ) : ℚ)))).map
        (fun p : ℚ × ℚ => { initState defaultConfig with
          current_offset_x := p.1,
          current_offset_y := p.2 }) := rfl

/-- C5, confirmed: with the default 128x64 monochrome configuration (32x32
eyes, distance 10, curious off), `look(TR, fast)` drives the gaze offsets
exactly to `(maxX, minY)` as computed by `get_constraints` (easing by 2 px
per tick, each axis clamped independently), and a subsequent
`look(C, slow)` returns them exactly to `(0, 0)` at 0.5 px per tick. -/
theorem c5_look_tr_then_center :
    ∃ s1 s2 : AnimState,
      look defaultConfig (initState defaultConfig) "TR" "fast" 100 = some s1 ∧
      s1.current_offset_x =
        (((get_constraints defaultConfig (initState defaultConfig)).2.1 : ℤ) : ℚ) ∧
      s1.current_offset_y =
        (((get_constraints defaultConfig (initState defaultConfig)).2.2.1 : ℤ) : ℚ) ∧
      look defaultConfig s1 "C" "slow" 200 = some s2 ∧
      s2.current_offset_x = 0 ∧ s2.current_offset_y = 0 := by
  refine ⟨{ initState defaultConfig with
      current_offset_x := (((27 : ℤ) : ℚ)),
      current_offset_y := (((-16 : ℤ) : ℚ)) },
    { initState defaultConfig with
      current_offset_x := (((0 : ℤ) : ℚ)),
      current_offset_y := (((0 : ℤ) : ℚ)) }, ?_, rfl, rfl, ?_, ?_, ?_⟩
  · rw [look_tr_fast_red,
      look_loop_converges (((27 : ℤ) : ℚ)) (((-16 : ℤ) : ℚ)) 2 (by norm_num) 100 0 0
        (by push_cast; norm_num) (by push_cast; norm_num)
        (by push_cast; norm_num) (by push_cast; norm_num)]
    rfl
  · rw [look_c_slow_red,
      look_loop_converges (((0 : ℤ) : ℚ)) (((0 : ℤ) : ℚ)) (1 / 2) (by norm_num) 200
        (((27 : ℤ) : ℚ)) (((-16 : ℤ) : ℚ))
        (by push_cast; norm_num) (by push_cast; norm_num)
        (by push_cast; norm_num) (by push_cast; norm_num)]
    rfl
  · norm_num
  · norm_num

/-! ### The reachable-state invariant -/

/-- The inductive invariant of the animation state under the command
surface: `current_closed` is one of the four legal values, the eye heights
stay between the minimum 2 and the configured base heights, `"both"`
implies both heights are at the minimum, and every eyelid height is between
0 and half the configured base height of the eye it masks. -/
def Inv (config : Config) (s : AnimState) : Prop :=
  (s.current_closed = none ∨ s.current_closed = some ("left") ∨
    s.current_closed = some ("right") ∨ s.current_closed = some ("both")) ∧
  (2 ≤ s.current_eye_height_left ∧
    s.current_eye_height_left ≤ (config.left.height : ℤ)) ∧
  (2 ≤ s.current_eye_height_right ∧
    s.current_eye_height_right ≤ (config.right.height : ℤ)) ∧
  (s.current_closed = some ("both") →
    s.current_eye_height_left = 2 ∧ s.current_eye_height_right = 2) ∧
  (0 ≤ s.lids.top_inner_left ∧
    s.lids.top_inner_left ≤ (config.left.height : ℤ) / 2) ∧
  (0 ≤ s.lids.top_outer_left ∧
    s.lids.top_outer_left ≤ (config.left.height : ℤ) / 2) ∧
  (0 ≤ s.lids.bottom_left ∧
    s.lids.bottom_left ≤ (config.left.height : ℤ) / 2) ∧
  (0 ≤ s.lids.top_inner_right ∧
    s.lids.top_inner_right ≤ (config.right.height : ℤ) / 2) ∧
  (0 ≤ s.lids.top_outer_right ∧
    s.lids.top_outer_right ≤ (config.right.height : ℤ) / 2) ∧
  (0 ≤ s.lids.bottom_right ∧
    s.lids.bottom_right ≤ (config.right.height : ℤ) / 2)

/-- Whatever the
eye argument and fuel, a finished `close_eyes` loop keeps the heights
between 2 and their entry values, records one of the three scopes, and
records `"both"` only with both heights at the minimum. -/
theorem close_loop_inv (eye : Option String) (s : ℤ) (hs : 0 ≤ s) :
    ∀ (fuel : ℕ) (hl hr : ℤ) (r : ℤ × ℤ × Option String),
      2 ≤ hl → 2 ≤ hr → close_loop eye s fuel hl hr = some r →
      (2 ≤ r.1 ∧ r.1 ≤ hl ∧ 2 ≤ r.2.1 ∧ r.2.1 ≤ hr) ∧
      (r.2.2 = some ("left") ∨ r.2.2 = some ("right") ∨ r.2.2 = some ("both")) ∧
      (r.2.2 = some ("both") → r.1 = 2 ∧ r.2.1 = 2) := by
  intro fuel
  induction fuel with
  | zero =>
    intro hl hr r _ _ h
    simp only [close_loop] at h
    exact Option.noConfusion h
  | succ n ih =>
    intro hl hr r h2l h2r h
    simp only [close_loop] at h
    set hl' := if eye_in eye ["both", "left"] = true then max 2 (hl - s) else hl with hhl
    set hr' := if eye_in eye ["both", "right"] = true then max 2 (hr - s) else hr with hhr
    have hl'b : 2 ≤ hl' ∧ hl' ≤ hl := by rw [hhl]; split_ifs <;> omega
    have hr'b : 2 ≤ hr' ∧ hr' ≤ hr := by rw [hhr]; split_ifs <;> omega
    split_ifs at h with h1 h2 h3
    · rw [Option.some.injEq] at h
      subst h
      obtain ⟨⟨h1a, _⟩, ⟨h1b, _⟩⟩ := h1
      dsimp only
      exact ⟨⟨by omega, by omega, by omega, by omega⟩,
        Or.inr (Or.inr rfl), fun _ => ⟨by omega, by omega⟩⟩
    · rw [Option.some.injEq] at h
      subst h
      obtain ⟨h2a, _⟩ := h2
      dsimp only
      exact ⟨⟨by omega, by omega, by omega, by omega⟩,
        Or.inl rfl, fun hcon => absurd hcon (by decide)⟩
    · rw [Option.some.injEq] at h
      subst h
      obtain ⟨h3a, _⟩ := h3
      dsimp only
      exact ⟨⟨by omega, by omega, by omega, by omega⟩,
        Or.inr (Or.inl rfl), fun hcon => absurd hcon (by decide)⟩
    · have hres := ih hl' hr' r hl'b.1 hr'b.1 h
      exact ⟨⟨hres.1.1, le_trans hres.1.2.1 hl'b.2, hres.1.2.2.1,
        le_trans hres.1.2.2.2 hr'b.2⟩, hres.2.1, hres.2.2⟩

/-- A finished `open_eyes` loop keeps the heights between 2 and the
configured base heights, and records `none`, `"left"` or `"right"` — never
`"both"`. -/
theorem open_loop_inv (eye : Option String) (s L R : ℤ) (closed0 : Option String)
    (hs : 0 ≤ s) :
    ∀ (fuel : ℕ) (hl hr : ℤ) (r : ℤ × ℤ × Option String),
      2 ≤ hl → hl ≤ L → 2 ≤ hr → hr ≤ R →
      open_loop eye s L R closed0 fuel hl hr = some r →
      (2 ≤ r.1 ∧ r.1 ≤ L ∧ 2 ≤ r.2.1 ∧ r.2.1 ≤ R) ∧
      (r.2.2 = none ∨ r.2.2 = some ("left") ∨ r.2.2 = some ("right")) := by
  intro fuel
  induction fuel with
  | zero =>
    intro hl hr r _ _ _ _ h
    simp only [open_loop] at h
    exact Option.noConfusion h
  | succ n ih =>
    intro hl hr r h2l hlL h2r hrR h
    simp only [open_loop] at h
    set hl' := if eye_in eye ["both", "left"] = true then min L (hl + s) else hl with hhl
    set hr' := if eye_in eye ["both", "right"] = true then min R (hr + s) else hr with hhr
    have hl'b : 2 ≤ hl' ∧ hl' ≤ L := by rw [hhl]; split_ifs <;> omega
    have hr'b : 2 ≤ hr' ∧ hr' ≤ R := by rw [hhr]; split_ifs <;> omega
    split_ifs at h with h1 h2 h3 h4 h5
    · rw [Option.some.injEq] at h
      subst h
      dsimp only
      exact ⟨⟨by omega, by omega, by omega, by omega⟩, Or.inl rfl⟩
    · rw [Option.some.injEq] at h
      subst h
      dsimp only
      exact ⟨⟨by omega, by omega, by omega, by omega⟩, Or.inr (Or.inr rfl)⟩
    · rw [Option.some.injEq] at h
      subst h
      dsimp only
      exact ⟨⟨by omega, by omega, by omega, by omega⟩, Or.inl rfl⟩
    · rw [Option.some.injEq] at h
      subst h
      dsimp only
      exact ⟨⟨by omega, by omega, by omega, by omega⟩, Or.inr (Or.inl rfl)⟩
    · rw [Option.some.injEq] at h
      subst h
      dsimp only
      exact ⟨⟨by omega, by omega, by omega, by omega⟩, Or.inl rfl⟩
    · exact ih hl' hr' r hl'b.1 hl'b.2 hr'b.1 hr'b.2 h

/-- A finished `change_face` loop returns exactly its target. -/
theorem change_face_loop_eq_target (tgt : Lids) :
    ∀ (fuel : ℕ) (cur l : Lids), change_face_loop tgt fuel cur = some l → l = tgt := by
  intro fuel
  induction fuel with
  | zero =>
    intro cur l h
    rw [show change_face_loop tgt 0 cur =
        if cur = tgt then some cur else none from rfl] at h
    split_ifs at h with hc
    rw [Option.some.injEq] at h
    rw [← h, hc]
  | succ n ih =>
    intro cur l h
    rw [show change_face_loop tgt (n + 1) cur =
        if cur = tgt then some cur
        else change_face_loop tgt n (step_lids cur tgt) from rfl] at h
    split_ifs at h with hc
    · rw [Option.some.injEq] at h
      rw [← h, hc]
    · exact ih _ _ h

/-- `change_face` preserves the invariant: the final lids are the targets,
which are bounded by half the current (hence half the base) eye heights. -/
theorem change_face_inv (config : Config) (s : AnimState) (nf : Option String)
    (fuel : ℕ) (s' : AnimState) (hInv : Inv config s)
    (h : change_face config s nf fuel = some s') : Inv config s' := by
  simp only [change_face] at h
  rw [Option.map_eq_some'] at h
  obtain ⟨l, hloop, rfl⟩ := h
  have hlt := change_face_loop_eq_target _ _ _ _ hloop
  subst hlt
  obtain ⟨h4, hL, hR, hboth, l1, l2, l3, l4, l5, l6⟩ := hInv
  refine ⟨h4, hL, hR, hboth, ?_, ?_, ?_, ?_, ?_, ?_⟩ <;>
    · unfold face_targets
      split_ifs <;> dsimp only <;> exact ⟨by omega, by omega⟩

/-- `look` preserves the invariant: it only writes the gaze offsets. -/
theorem look_inv (config : Config) (s : AnimState) (dir speed : String)
    (fuel : ℕ) (s' : AnimState) (hInv : Inv config s)
    (h : look config s dir speed fuel = some s') : Inv config s' := by
  simp only [look] at h
  rw [Option.map_eq_some'] at h
  obtain ⟨p, hp, rfl⟩ := h
  exact hInv

/-- `close_eyes` preserves the invariant. -/
theorem close_eyes_inv (config : Config) (s : AnimState) (eye : Option String)
    (speed : String) (fuel : ℕ) (s' : AnimState) (hInv : Inv config s)
    (h : close_eyes config s eye speed fuel = some s') : Inv config s' := by
  simp only [close_eyes] at h
  rw [Option.map_eq_some'] at h
  obtain ⟨r, hr, rfl⟩ := h
  obtain ⟨h4, hL, hR, hboth, l1, l2, l3, l4, l5, l6⟩ := hInv
  have hres := close_loop_inv eye (movement_speed speed)
    (by linarith [one_le_movement_speed speed]) fuel _ _ r hL.1 hR.1 hr
  refine ⟨?_, ⟨hres.1.1, le_trans hres.1.2.1 hL.2⟩,
    ⟨hres.1.2.2.1, le_trans hres.1.2.2.2 hR.2⟩, hres.2.2, l1, l2, l3, l4, l5, l6⟩
  rcases hres.2.1 with hc | hc | hc
  · exact Or.inr (Or.inl hc)
  · exact Or.inr (Or.inr (Or.inl hc))
  · exact Or.inr (Or.inr (Or.inr hc))

/-- `open_eyes` preserves the invariant (here the configured base heights
must themselves be at least the minimum visible size 2). -/
theorem open_eyes_inv (config : Config) (hbL : 2 ≤ (config.left.height : ℤ))
    (hbR : 2 ≤ (config.right.height : ℤ)) (s : AnimState) (eye : Option String)
    (speed : String) (fuel : ℕ) (s' : AnimState) (hInv : Inv config s)
    (h : open_eyes config s eye speed fuel = some s') : Inv config s' := by
  obtain ⟨h4, hL, hR, hboth, l1, l2, l3, l4, l5, l6⟩ := hInv
  have hclosed_not_both :
      ∀ r : ℤ × ℤ × Option String,
        (r.2.2 = none ∨ r.2.2 = some ("left") ∨ r.2.2 = some ("right")) →
        r.2.2 = some ("both") → r.1 = 2 ∧ r.2.1 = 2 := by
    intro r h3 hcon
    rcases h3 with hc | hc | hc <;> rw [hc] at hcon <;> exact absurd hcon (by decide)
  rcases h4 with hcl | hcl | hcl | hcl
  · unfold open_eyes at h
    rw [hcl] at h
    have h2 : some s = some s' := h
    rw [Option.some.injEq] at h2
    subst h2
    exact ⟨Or.inl hcl, hL, hR, hboth, l1, l2, l3, l4, l5, l6⟩
  · rw [open_eyes_entered_left config s speed fuel eye hcl] at h
    rw [Option.map_eq_some'] at h
    obtain ⟨r, hr, rfl⟩ := h
    have hres := open_loop_inv eye (movement_speed speed) _ _ (some ("left"))
      (by linarith [one_le_movement_speed speed]) fuel 2 _ r
      (by norm_num) hbL hbR (le_refl _) hr
    refine ⟨?_, ⟨hres.1.1, hres.1.2.1⟩, ⟨hres.1.2.2.1, hres.1.2.2.2⟩,
      hclosed_not_both r hres.2, l1, l2, l3, l4, l5, l6⟩
    rcases hres.2 with hc | hc | hc
    · exact Or.inl hc
    · exact Or.inr (Or.inl hc)
    · exact Or.inr (Or.inr (Or.inl hc))
  · rw [open_eyes_entered_right config s speed fuel eye hcl] at h
    rw [Option.map_eq_some'] at h
    obtain ⟨r, hr, rfl⟩ := h
    have hres := open_loop_inv eye (movement_speed speed) _ _ (some ("right"))
      (by linarith [one_le_movement_speed speed]) fuel _ 2 r
      hbL (le_refl _) (by norm_num) hbR hr
    refine ⟨?_, ⟨hres.1.1, hres.1.2.1⟩, ⟨hres.1.2.2.1, hres.1.2.2.2⟩,
      hclosed_not_both r hres.2, l1, l2, l3, l4, l5, l6⟩
    rcases hres.2 with hc | hc | hc
    · exact Or.inl hc
    · exact Or.inr (Or.inl hc)
    · exact Or.inr (Or.inr (Or.inl hc))
  · rw [open_eyes_entered_both config s speed fuel eye hcl] at h
    rw [Option.map_eq_some'] at h
    obtain ⟨r, hr, rfl⟩ := h
    have hres := open_loop_inv eye (movement_speed speed) _ _ (some ("both"))
      (by linarith [one_le_movement_speed speed]) fuel 2 2 r
      (by norm_num) hbL (by norm_num) hbR hr
    refine ⟨?_, ⟨hres.1.1, hres.1.2.1⟩, ⟨hres.1.2.2.1, hres.1.2.2.2⟩,
      hclosed_not_both r hres.2, l1, l2, l3, l4, l5, l6⟩
    rcases hres.2 with hc | hc | hc
    · exact Or.inl hc
    · exact Or.inr (Or.inl hc)
    · exact Or.inr (Or.inr (Or.inl hc))

/-- Every finished command preserves the invariant. -/
theorem runCmd_inv (config : Config) (hbL : 2 ≤ (config.left.height : ℤ))
    (hbR : 2 ≤ (config.right.height : ℤ)) (c : Cmd) (fuel : ℕ)
    (s s' : AnimState) (hInv : Inv config s)
    (h : runCmd config c fuel s = some s') : Inv config s' := by
  cases c with
  | changeFace nf => exact change_face_inv config s nf fuel s' hInv h
  | lookCmd dir speed => exact look_inv config s dir speed fuel s' hInv h
  | closeEyes eye speed => exact close_eyes_inv config s eye speed fuel s' hInv h
  | openEyes eye speed => exact open_eyes_inv config hbL hbR s eye speed fuel s' hInv h
  | blink eye speed =>
    simp only [runCmd, blink_eyes] at h
    rw [Option.bind_eq_some] at h
    obtain ⟨mid, h1, h2⟩ := h
    exact open_eyes_inv config hbL hbR mid eye speed fuel s'
      (close_eyes_inv config s eye speed fuel mid hInv h1) h2
  | curious =>
    simp only [runCmd, Option.some.injEq] at h
    subst h
    exact hInv

/-- Every state reachable from the initial state satisfies the invariant,
provided the configured base heights are at least the minimum size 2. -/
theorem reachable_inv (config : Config) (hbl : 2 ≤ config.left.height)
    (hbr : 2 ≤ config.right.height) (s : AnimState)
    (h : Reachable config s) : Inv config s := by
  have hbL : (2 : ℤ) ≤ (config.left.height : ℤ) := by exact_mod_cast hbl
  have hbR : (2 : ℤ) ≤ (config.right.height : ℤ) := by exact_mod_cast hbr
  induction h with
  | init =>
    refine ⟨Or.inl rfl, ⟨hbL, le_refl _⟩, ⟨hbR, le_refl _⟩,
      fun hcon => Option.noConfusion hcon, ?_, ?_, ?_, ?_, ?_, ?_⟩ <;>
      · dsimp only [initState]
        exact ⟨le_refl _, by omega⟩
  | step c fuel hreach hcmd ih =>
    exact runCmd_inv config hbL hbR c fuel _ _ ih hcmd

/-! ### Claim C6: eyelid heights vs eye heights -/

/-- The claim's property: every eyelid height is at most half the *current*
height of the eye it masks. -/
def lids_le_half_current (s : AnimState) : Prop :=
  s.lids.top_inner_left ≤ s.current_eye_height_left / 2 ∧
  s.lids.top_outer_left ≤ s.current_eye_height_left / 2 ∧
  s.lids.bottom_left ≤ s.current_eye_height_left / 2 ∧
  s.lids.top_inner_right ≤ s.current_eye_height_right / 2 ∧
  s.lids.top_outer_right ≤ s.current_eye_height_right / 2 ∧
  s.lids.bottom_right ≤ s.current_eye_height_right / 2

/-- The state after `change_face(happy)` from the initial default state:
bottom lids at 16 = 32/2. -/
def happyOpenState : AnimState :=
  { initState defaultConfig with
    current_face := "happy"
    lids := ⟨0, 0, 16, 0, 0, 16⟩ }

/-- The state after additionally running `close_eyes(both, fast)`: eye
heights at the minimum 2, bottom lids still at 16. -/
def happyClosedState : AnimState :=
  { happyOpenState with
    current_eye_height_left := 2
    current_eye_height_right := 2
    current_closed := some ("both") }

/-- C6, counterexample: the reachable state obtained by `change_face(happy)`
followed by `close_eyes(both, fast)` has bottom eyelid heights 16 while the
eyes' current heights are 2, so an eyelid exceeds half the current eye
height (16 > 1): `close_eyes` shrinks the eyes without touching the lids. -/
theorem c6_lid_exceeds_half_current :
    ¬ (∀ s : AnimState, Reachable defaultConfig s → lids_le_half_current s) := by
  intro hall
  have h1 : runCmd defaultConfig (Cmd.changeFace (some ("happy"))) 10
      (initState defaultConfig) = some happyOpenState := by decide
  have h2 : runCmd defaultConfig (Cmd.closeEyes (some ("both")) ("fast")) 10
      happyOpenState = some happyClosedState := by decide
  have hc := hall happyClosedState
    (Reachable.step (Cmd.closeEyes (some ("both")) ("fast")) 10
      (Reachable.step (Cmd.changeFace (some ("happy"))) 10 Reachable.init h1) h2)
  unfold lids_le_half_current at hc
  exact absurd (hc.2.2.1 : (16 : ℤ) ≤ 2 / 2) (by decide)

/-- C6, amended: in every reachable state (for base heights ≥ 2), each
eyelid height is at most half the *configured base* height of the eye it
masks — the bound in terms of the current height fails once `close_eyes`
shrinks an eye under lids raised by `change_face`. -/
theorem c6_lids_le_half_base (config : Config) (s : AnimState)
    (hbl : 2 ≤ config.left.height) (hbr : 2 ≤ config.right.height)
    (h : Reachable config s) :
    s.lids.top_inner_left ≤ (config.left.height : ℤ) / 2 ∧
    s.lids.top_outer_left ≤ (config.left.height : ℤ) / 2 ∧
    s.lids.bottom_left ≤ (config.left.height : ℤ) / 2 ∧
    s.lids.top_inner_right ≤ (config.right.height : ℤ) / 2 ∧
    s.lids.top_outer_right ≤ (config.right.height : ℤ) / 2 ∧
    s.lids.bottom_right ≤ (config.right.height : ℤ) / 2 := by
  obtain ⟨_, _, _, _, l1, l2, l3, l4, l5, l6⟩ := reachable_inv config hbl hbr s h
  exact ⟨l1.2, l2.2, l3.2, l4.2, l5.2, l6.2⟩

/-- C6, witness: the amended bound at the initial default state. -/
theorem c6_lids_le_half_base_witness :
    (initState defaultConfig).lids.top_inner_left ≤ (defaultConfig.left.height : ℤ) / 2 ∧
    (initState defaultConfig).lids.top_outer_left ≤ (defaultConfig.left.height : ℤ) / 2 ∧
    (initState defaultConfig).lids.bottom_left ≤ (defaultConfig.left.height : ℤ) / 2 ∧
    (initState defaultConfig).lids.top_inner_right ≤ (defaultConfig.right.height : ℤ) / 2 ∧
    (initState defaultConfig).lids.top_outer_right ≤ (defaultConfig.right.height : ℤ) / 2 ∧
    (initState defaultConfig).lids.bottom_right ≤ (defaultConfig.right.height : ℤ) / 2 :=
  c6_lids_le_half_base defaultConfig (initState defaultConfig)
    (by norm_num [defaultConfig]) (by norm_num [defaultConfig]) Reachable.init

/-! ### Claim C8: consistency of `closedState` with the eye heights -/

/-- The claim's consistency property between `current_closed` and the eye
heights. -/
def closed_consistent (config : Config) (s : AnimState) : Prop :=
  (s.current_closed = some ("both") →
    s.current_eye_height_left = 2 ∧ s.current_eye_height_right = 2) ∧
  (s.current_closed = some ("left") →
    s.current_eye_height_left = 2 ∧
    s.current_eye_height_right = (config.right.height : ℤ)) ∧
  (s.current_closed = some ("right") →
    s.current_eye_height_right = 2 ∧
    s.current_eye_height_left = (config.left.height : ℤ)) ∧
  (s.current_closed = none →
    s.current_eye_height_left = (config.left.height : ℤ) ∧
    s.current_eye_height_right = (config.right.height : ℤ))

/-- The state reached by `close_eyes(right, fast)` then
`open_eyes(left, fast)` from the initial default state: `current_closed`
is `none` but the right eye is still at the minimum height 2. -/
def halfOpenState : AnimState :=
  { initState defaultConfig with current_eye_height_right := 2 }

/-- C8, counterexample: after `close_eyes(right, fast)` and then
`open_eyes(left, fast)`, the reachable state has `closedState = none` while
the right eye height is 2, not its base 32 — `open_eyes` invoked with a
scope different from the closed eye resets `closedState` to `none` without
opening the still-closed eye. -/
theorem c8_none_with_closed_eye :
    ¬ (∀ s : AnimState, Reachable defaultConfig s →
        closed_consistent defaultConfig s) := by
  intro hall
  have h1 : runCmd defaultConfig (Cmd.closeEyes (some ("right")) ("fast")) 10
      (initState defaultConfig) = some rightClosedState := by decide
  have h2 : runCmd defaultConfig (Cmd.openEyes (some ("left")) ("fast")) 10
      rightClosedState = some halfOpenState := by decide
  have hc := hall halfOpenState
    (Reachable.step (Cmd.openEyes (some ("left")) ("fast")) 10
      (Reachable.step (Cmd.closeEyes (some ("right")) ("fast")) 10
        Reachable.init h1) h2)
  unfold closed_consistent at hc
  exact absurd ((hc.2.2.2 rfl).2 : (2 : ℤ) = 32) (by decide)

/-- C8, amended: the only direction of the consistency invariant the code
maintains in every reachable state (base heights ≥ 2) is:
`closedState = both` implies both eye heights are at the minimum 2.  The
`left`/`right`/`none` clauses fail (see the counterexample). -/
theorem c8_closed_both_implies_min (config : Config) (s : AnimState)
    (hbl : 2 ≤ config.left.height) (hbr : 2 ≤ config.right.height)
    (h : Reachable config s) (hb : s.current_closed = some ("both")) :
    s.current_eye_height_left = 2 ∧ s.current_eye_height_right = 2 := by
  obtain ⟨_, _, _, hboth, _, _, _, _, _, _⟩ := reachable_inv config hbl hbr s h
  exact hboth hb

/-- The state after `close_eyes(both, fast)` from the initial default
state. -/
def bothClosedState : AnimState :=
  { initState defaultConfig with
    current_eye_height_left := 2
    current_eye_height_right := 2
    current_closed := some ("both") }

/-- C8, witness: the amended invariant at the reachable both-closed state. -/
theorem c8_closed_both_implies_min_witness :
    bothClosedState.current_eye_height_left = 2 ∧
    bothClosedState.current_eye_height_right = 2 :=
  c8_closed_both_implies_min defaultConfig bothClosedState
    (by norm_num [defaultConfig]) (by norm_num [defaultConfig])
    (Reachable.step (Cmd.closeEyes (some ("both")) ("fast")) 10
      Reachable.init (by decide)) rfl

end Pilluma
